import Mathlib

/-!
Verification of the translation core of the shadowing repository.

The development shallowly embeds the three components the claims are about:

* `TranslationHelper` — the provider-priority translation dispatcher of
  `src/dist-electron/TranslationHelper.js` (cache check, provider loop with
  confidence gating, synthetic fallback, single-entry cache eviction,
  provider enable/disable).
* `FastTranslationHelper` — the M2M-100 subtitle translator of
  `src/dist-electron/FastTranslationHelper.js` (cache hit with access-metadata
  bump and `cacheHits` telemetry, MarianMT/M2M-100 dispatch, batch cache
  eviction, subtitle pattern classification, `clearCache`).
* `AreaSelectionHelper` — the timing behaviour of the `setInterval`-driven
  region monitoring loop of `src/electron/AreaSelectionHelper.ts`.

External effects are made explicit: network translation providers and local ML
models are oracles passed to the embedded functions, `Date.now()` is a clock
argument, and JavaScript `Map` objects are insertion-ordered association
lists.  Confidence scores and latencies are rationals.
-/

namespace Shadowing

universe u

variable {α : Type u}

/-! ### JavaScript `Map`

A JavaScript `Map` is an insertion-ordered key-value store.  We model it as an
association list in insertion order: `set` on a present key updates the value
in place, otherwise appends; `delete` removes the entry with the key;
iteration (`keys`, `entries`) follows list order, so the first element is the
oldest-inserted entry. -/

def mapGet (k : String) : List (String × α) → Option α
  | [] => none
  | e :: rest => if e.1 == k then some e.2 else mapGet k rest

def mapHas (k : String) : List (String × α) → Bool
  | [] => false
  | e :: rest => e.1 == k || mapHas k rest

def mapSet (k : String) (v : α) : List (String × α) → List (String × α)
  | [] => [(k, v)]
  | e :: rest => if e.1 == k then (k, v) :: rest else e :: mapSet k v rest

def mapDelete (k : String) : List (String × α) → List (String × α)
  | [] => []
  | e :: rest => if e.1 == k then rest else e :: mapDelete k rest

/-- Model of the `for`-loop that deletes a list of keys from a `Map`. -/
def removeKeys (ks : List String) (m : List (String × α)) : List (String × α) :=
  ks.foldl (fun acc k => mapDelete k acc) m

/-! ### JavaScript `Array.prototype.sort`

`Array.prototype.sort` with a numeric comparator is a stable ascending sort.
We model it as a stable insertion sort: each element is inserted after all
already-placed elements that compare less than or equal to it. -/

def insertOrdered (le : α → α → Bool) (x : α) : List α → List α
  | [] => [x]
  | y :: ys => if le y x then y :: insertOrdered le x ys else x :: y :: ys

def sortJs (le : α → α → Bool) (l : List α) : List α :=
  l.foldl (fun acc x => insertOrdered le x acc) []

/-! ### JavaScript truthiness helpers

`a || b` in JavaScript yields `b` when `a` is falsy.  For an optional string
the falsy values are `undefined` (modelled `none`) and `""`; for an optional
number they are `undefined` and `0` (`NaN` is outside the model). -/

def jsOrStr (s : Option String) (d : String) : String :=
  match s with
  | none => d
  | some v => if v == "" then d else v

def jsOrNum (s : Option ℚ) (d : ℚ) : ℚ :=
  match s with
  | none => d
  | some v => if v == 0 then d else v

namespace TranslationHelper

/-- Provider descriptor, from the `providers` field of `TranslationHelper`. -/
structure Provider where
  name : String
  enabled : Bool
  priority : Int
deriving Repr, DecidableEq

/-- The initial provider list of `TranslationHelper.providers`. -/
def providers : List Provider :=
  [{ name := "gemini", enabled := true, priority := 1 },
   { name := "google", enabled := true, priority := 2 },
   { name := "offline", enabled := true, priority := 3 }]

/-- The `TranslationResult` record produced by `TranslationHelper`; optional
`pinyin`/`tones` fields are omitted by the fallback paths. -/
structure TranslationResult where
  originalText : String
  translatedText : String
  pinyin : Option String := none
  tones : Option (List Int) := none
  confidence : ℚ
  provider : String
  detectedLanguage : String
  timestamp : Nat
deriving Repr, DecidableEq

/-- Mutable state of a `TranslationHelper` instance: the translation cache
(a `Map`) and the provider list (sorted in place by `translateText`). -/
structure State where
  translationCache : List (String × TranslationResult)
  providers : List Provider
deriving Repr, DecidableEq

/-- The state of a freshly constructed `TranslationHelper`. -/
def initialState : State :=
  { translationCache := [], providers := providers }

def MAX_CACHE_SIZE : Nat := 1000

/-- Cache key: `` `${text}-${targetLanguage}-${sourceLanguage || 'auto'}` ``. -/
def cacheKey (text targetLanguage : String) (sourceLanguage : Option String) : String :=
  text ++ "-" ++ targetLanguage ++ "-" ++ jsOrStr sourceLanguage "auto"

/-- Comparator `(a, b) => a.priority - b.priority` of the provider sort. -/
def providerLe (a b : Provider) : Bool :=
  decide (a.priority ≤ b.priority)

/-- Outcome of one provider invocation as observed by `translateText`:
a thrown error, a `null` result, or a `TranslationResult`. -/
abbrev ProviderOutcome := Except Unit (Option TranslationResult)

/-- `translateOffline`: the placeholder offline provider, embedded concretely
from the source (it returns `[OFFLINE] text` with confidence 0.3). -/
def translateOffline (text : String) (sourceLanguage : Option String) (now : Nat) :
    TranslationResult :=
  { originalText := text
    translatedText := "[OFFLINE] " ++ text
    confidence := mkRat 3 10
    provider := "offline"
    detectedLanguage := jsOrStr sourceLanguage "unknown"
    timestamp := now }

/-- The `switch (provider.name)` of the provider loop.  `gemini` and `google`
are network calls, modelled by the oracle; `offline` is local code, embedded
concretely; any other name leaves `result = null`. -/
def invokeProvider (oracle : String → ProviderOutcome) (name text : String)
    (sourceLanguage : Option String) (now : Nat) : ProviderOutcome :=
  if name == "gemini" then oracle "gemini"
  else if name == "google" then oracle "google"
  else if name == "offline" then Except.ok (some (translateOffline text sourceLanguage now))
  else Except.ok none

/-- Whether a provider outcome passes the `result && result.confidence > 0.5`
acceptance test of `translateText`. -/
def isAccepted (o : ProviderOutcome) : Bool :=
  match o with
  | Except.ok (some r) => decide (mkRat 1 2 < r.confidence)
  | _ => false

/-- The `for (const provider of ...)` loop of `translateText`: skip disabled
providers, swallow thrown errors, accept the first result with confidence
strictly above 0.5. -/
def providerLoop (oracle : String → ProviderOutcome) (text : String)
    (sourceLanguage : Option String) (now : Nat) : List Provider → Option TranslationResult
  | [] => none
  | p :: rest =>
    if p.enabled then
      match invokeProvider oracle p.name text sourceLanguage now with
      | Except.ok (some r) =>
        if mkRat 1 2 < r.confidence then some r
        else providerLoop oracle text sourceLanguage now rest
      | _ => providerLoop oracle text sourceLanguage now rest
    else providerLoop oracle text sourceLanguage now rest

/-- The synthetic fallback result returned when every provider is exhausted. -/
def fallbackResult (text : String) (sourceLanguage : Option String) (now : Nat) :
    TranslationResult :=
  { originalText := text
    translatedText := text
    confidence := 0
    provider := "offline"
    detectedLanguage := jsOrStr sourceLanguage "unknown"
    timestamp := now }

/-- `cacheTranslation`, with the `MAX_CACHE_SIZE` constant as a parameter:
when the cache is full, delete the entry of the first (oldest-inserted) key,
then insert. -/
def cacheTranslationWith (maxCacheSize : Nat) (key : String) (result : TranslationResult)
    (cache : List (String × TranslationResult)) : List (String × TranslationResult) :=
  let pruned :=
    if maxCacheSize ≤ cache.length then
      match cache with
      | [] => cache
      | e :: _ => mapDelete e.1 cache
    else cache
  mapSet key result pruned

/-- `cacheTranslation` of `TranslationHelper` (capacity 1000). -/
def cacheTranslation (key : String) (result : TranslationResult)
    (cache : List (String × TranslationResult)) : List (String × TranslationResult) :=
  cacheTranslationWith MAX_CACHE_SIZE key result cache

/-- `translateText` of `TranslationHelper`: cache check, in-place sort of the
provider list, provider loop, fallback.  The oracle provides the outcomes of
the network providers for this call; `now` models `Date.now()`. -/
def translateText (oracle : String → ProviderOutcome) (text targetLanguage : String)
    (sourceLanguage : Option String) (now : Nat) (st : State) :
    TranslationResult × State :=
  let key := cacheKey text targetLanguage sourceLanguage
  match mapGet key st.translationCache with
  | some r => (r, st)
  | none =>
    let sorted := sortJs providerLe st.providers
    match providerLoop oracle text sourceLanguage now sorted with
    | some r =>
      (r, { translationCache := cacheTranslation key r st.translationCache
            providers := sorted })
    | none =>
      (fallbackResult text sourceLanguage now,
       { translationCache := st.translationCache, providers := sorted })

/-- `setProviderEnabled`: `find` the first provider with the name and set its
`enabled` flag; no match leaves the list unchanged. -/
def setProviderEnabled (name : String) (enabled : Bool) : List Provider → List Provider
  | [] => []
  | p :: rest =>
    if p.name == name then { p with enabled := enabled } :: rest
    else p :: setProviderEnabled name enabled rest

/-- `clearCache` of `TranslationHelper`. -/
def clearCache (st : State) : State :=
  { st with translationCache := [] }

/-- The public operations that touch the cache or the provider list, for
stating invariants over arbitrary operation sequences. -/
inductive Op where
  | translate (oracle : String → ProviderOutcome) (text targetLanguage : String)
      (sourceLanguage : Option String) (now : Nat)
  | clearCache
  | setProviderEnabled (name : String) (enabled : Bool)

def applyOp (st : State) : Op → State
  | Op.translate oracle text tgt src now => (translateText oracle text tgt src now st).2
  | Op.clearCache => clearCache st
  | Op.setProviderEnabled name b => { st with providers := setProviderEnabled name b st.providers }

def runOps (ops : List Op) (st : State) : State :=
  ops.foldl applyOp st

end TranslationHelper

/-! ### Character classes used by the subtitle-pattern regexes -/

def isUpperAZ (c : Char) : Bool :=
  decide (65 ≤ c.toNat ∧ c.toNat ≤ 90)

def isLowerAZ (c : Char) : Bool :=
  decide (97 ≤ c.toNat ∧ c.toNat ≤ 122)

def isDigitCh (c : Char) : Bool :=
  decide (48 ≤ c.toNat ∧ c.toNat ≤ 57)

/-- A character matched by `.` in a JavaScript regex without the `s` flag:
anything except a line terminator. -/
def jsDot (c : Char) : Bool :=
  !(decide (c.toNat = 10 ∨ c.toNat = 13 ∨ c.toNat = 0x2028 ∨ c.toNat = 0x2029))

/-- A character matched by `\s` in a JavaScript regex. -/
def jsWhitespace (c : Char) : Bool :=
  decide (c.toNat = 32 ∨ (9 ≤ c.toNat ∧ c.toNat ≤ 13) ∨ c.toNat = 0xa0 ∨
    c.toNat = 0x1680 ∨ (0x2000 ≤ c.toNat ∧ c.toNat ≤ 0x200a) ∨ c.toNat = 0x2028 ∨
    c.toNat = 0x2029 ∨ c.toNat = 0x202f ∨ c.toNat = 0x205f ∨ c.toNat = 0x3000 ∨
    c.toNat = 0xfeff)

def isTerminalPunct (c : Char) : Bool :=
  c == '.' || c == '!' || c == '?'

/-- A double or single quote, the class `["']`. -/
def isQuoteCh (c : Char) : Bool :=
  c.toNat == 34 || c.toNat == 39

def toLowerAscii (c : Char) : Char :=
  if isUpperAZ c then Char.ofNat (c.toNat + 32) else c

/-- Whether `pre` is a prefix of `cs` (character-wise). -/
def listStarts : List Char → List Char → Bool
  | [], _ => true
  | _ :: _, [] => false
  | p :: ps, c :: cs => p == c && listStarts ps cs

namespace FastTranslationHelper

/-! ### Subtitle detection patterns (`subtitlePatterns` and
`detectSubtitlePattern`)

Each fixed regex of the `subtitlePatterns` table is translated to an exact
decision procedure on the character list of the text.  The translations use
that the regexes are anchored at both ends and that their character classes
are disjoint wherever greediness could matter, so each regex has exactly one
possible decomposition of a matching string. -/

/-- Regex `^[A-Z][a-z].*[.!?]$` (capitalized sentence). -/
def dialogueCapitalized (cs : List Char) : Bool :=
  match cs with
  | a :: b :: rest =>
    isUpperAZ a && isLowerAZ b &&
      (match rest.getLast? with
       | some l => isTerminalPunct l && rest.dropLast.all jsDot
       | none => false)
  | _ => false

/-- Regex `^["'].*["']$` (quoted text). -/
def dialogueQuoted (cs : List Char) : Bool :=
  match cs with
  | a :: rest =>
    isQuoteCh a &&
      (match rest.getLast? with
       | some l => isQuoteCh l && rest.dropLast.all jsDot
       | none => false)
  | [] => false

/-- Regex `^-\s*[A-Z].*$` (dash dialogue). -/
def dialogueDash (cs : List Char) : Bool :=
  match cs with
  | a :: rest =>
    a.toNat == 45 &&
      (match rest.dropWhile jsWhitespace with
       | c :: cs2 => isUpperAZ c && cs2.all jsDot
       | [] => false)
  | [] => false

/-- Regex `^[A-Z\s]+:\s*.*$` (character name and dialogue). -/
def dialogueSpeaker (cs : List Char) : Bool :=
  !(cs.takeWhile (fun c => isUpperAZ c || jsWhitespace c)).isEmpty &&
    (match cs.dropWhile (fun c => isUpperAZ c || jsWhitespace c) with
     | c :: rest => c.toNat == 58 && (rest.dropWhile jsWhitespace).all jsDot
     | [] => false)

/-- Regex of shape open, one-or-more middle characters, close. -/
def wrappedPlus (isOpenCh isCloseCh inner : Char → Bool) (cs : List Char) : Bool :=
  match cs with
  | c :: rest =>
    isOpenCh c &&
      (match rest.getLast? with
       | some l => isCloseCh l && !rest.dropLast.isEmpty && rest.dropLast.all inner
       | none => false)
  | [] => false

/-- Regex of shape open, zero-or-more middle characters, close. -/
def wrappedStar (isOpenCh isCloseCh inner : Char → Bool) (cs : List Char) : Bool :=
  match cs with
  | c :: rest =>
    isOpenCh c &&
      (match rest.getLast? with
       | some l => isCloseCh l && rest.dropLast.all inner
       | none => false)
  | [] => false

/-- Regex `^\([^)]+\)$` (narrator text). -/
def narratorParen (cs : List Char) : Bool :=
  wrappedPlus (fun c => c == '(') (fun c => c == ')') (fun c => !(c == ')')) cs

/-- Regex `^\[[^\]]+\]$` (action description). -/
def narratorBracket (cs : List Char) : Bool :=
  wrappedPlus (fun c => c == '[') (fun c => c == ']') (fun c => !(c == ']')) cs

/-- Regex `^[A-Z\s]+:$` (scene description). -/
def narratorSceneLabel (cs : List Char) : Bool :=
  match cs.getLast? with
  | some l =>
    l.toNat == 58 && !cs.dropLast.isEmpty &&
      cs.dropLast.all (fun c => isUpperAZ c || jsWhitespace c)
  | none => false

/-- Regex `^\*[^*]+\*$` (action between asterisks). -/
def actionStarred (cs : List Char) : Bool :=
  wrappedPlus (fun c => c == '*') (fun c => c == '*') (fun c => !(c == '*')) cs

/-- Regex `^<[^>]+>$` (sound effect). -/
def actionAngle (cs : List Char) : Bool :=
  wrappedPlus (fun c => c == '<') (fun c => c == '>') (fun c => !(c == '>')) cs

/-- Whether the list begins with the letters of "sound", case-insensitively. -/
def startsWithSound : List Char → Bool
  | a :: b :: c :: d :: e :: _ =>
    toLowerAscii a == 's' && toLowerAscii b == 'o' && toLowerAscii c == 'u' &&
      toLowerAscii d == 'n' && toLowerAscii e == 'd'
  | _ => false

/-- Whether the list contains "sound" case-insensitively. -/
def containsSoundCI : List Char → Bool
  | [] => false
  | c :: rest => startsWithSound (c :: rest) || containsSoundCI rest

/-- Regex `^\([^)]*sounds?[^)]*\)$` with the `i` flag (sound description). -/
def actionSound (cs : List Char) : Bool :=
  match cs with
  | c :: rest =>
    (c == '(') &&
      (match rest.getLast? with
       | some l =>
         (l == ')') && rest.dropLast.all (fun x => !(x == ')')) &&
           containsSoundCI rest.dropLast
       | none => false)
  | [] => false

/-- Regex `^♪.*♪$` (musical notes). -/
def songNote (cs : List Char) : Bool :=
  wrappedStar (fun c => c == '♪') (fun c => c == '♪') jsDot cs

/-- Regex `^♫.*♫$` (musical notes, alternative). -/
def songNoteAlt (cs : List Char) : Bool :=
  wrappedStar (fun c => c == '♫') (fun c => c == '♫') jsDot cs

/-- Regex `^~.*~$` (tilde wrapped). -/
def songTilde (cs : List Char) : Bool :=
  wrappedStar (fun c => c == '~') (fun c => c == '~') jsDot cs

def dialoguePatterns : List (List Char → Bool) :=
  [dialogueCapitalized, dialogueQuoted, dialogueDash, dialogueSpeaker]

def narratorPatterns : List (List Char → Bool) :=
  [narratorParen, narratorBracket, narratorSceneLabel]

def actionPatterns : List (List Char → Bool) :=
  [actionStarred, actionAngle, actionSound]

def songPatterns : List (List Char → Bool) :=
  [songNote, songNoteAlt, songTilde]

inductive SubtitleType where
  | dialogue
  | narrator
  | action
  | song
  | unknown
deriving Repr, DecidableEq

structure SubtitlePattern where
  isSubtitle : Bool
  subtitleType : SubtitleType
  confidence : ℚ
deriving Repr, DecidableEq

/-- Regex `/[.!?]$/`: the text ends with terminal punctuation. -/
def endsWithTerminal (cs : List Char) : Bool :=
  match cs.getLast? with
  | some l => isTerminalPunct l
  | none => false

/-- Regex `/^https?:\/\//`: the text starts like a URL. -/
def startsWithHttp (cs : List Char) : Bool :=
  listStarts "http://".toList cs || listStarts "https://".toList cs

/-- Regex `/^\d+[\d\s:,.-]*$/`: purely numeric or time-like text. -/
def numericOnly (cs : List Char) : Bool :=
  match cs with
  | c :: rest =>
    isDigitCh c &&
      rest.all (fun x =>
        isDigitCh x || jsWhitespace x || x.toNat == 58 || x.toNat == 44 ||
          x.toNat == 46 || x.toNat == 45)
  | [] => false

/-- `detectSubtitlePattern`: the category tables are scanned in insertion
order (dialogue, narrator, action, song), the first matching rule wins with
confidence 0.9; otherwise the heuristic fallback applies. -/
def detectSubtitlePattern (text : String) : SubtitlePattern :=
  let cs := text.toList
  if dialoguePatterns.any (fun p => p cs) then
    { isSubtitle := true, subtitleType := SubtitleType.dialogue, confidence := mkRat 9 10 }
  else if narratorPatterns.any (fun p => p cs) then
    { isSubtitle := true, subtitleType := SubtitleType.narrator, confidence := mkRat 9 10 }
  else if actionPatterns.any (fun p => p cs) then
    { isSubtitle := true, subtitleType := SubtitleType.action, confidence := mkRat 9 10 }
  else if songPatterns.any (fun p => p cs) then
    { isSubtitle := true, subtitleType := SubtitleType.song, confidence := mkRat 9 10 }
  else
    let hasSubtitleCharacteristics :=
      decide (5 < cs.length) && decide (cs.length < 200) && endsWithTerminal cs &&
        !startsWithHttp cs && !numericOnly cs
    { isSubtitle := hasSubtitleCharacteristics
      subtitleType := SubtitleType.unknown
      confidence := if hasSubtitleCharacteristics then mkRat 6 10 else mkRat 1 10 }

/-! ### Fast translation state and operations -/

/-- The `FastTranslationResult` record. -/
structure FastTranslationResult where
  originalText : String
  translatedText : String
  confidence : ℚ
  latency : ℚ
  provider : String
  detectedLanguage : String
  isSubtitle : Bool
  timestamp : Nat
deriving Repr, DecidableEq

/-- A cache entry (`CachedTranslation`). -/
structure CachedTranslation where
  result : FastTranslationResult
  accessCount : Nat
  lastAccessed : Nat
deriving Repr, DecidableEq

/-- The `performanceStats` record. -/
structure PerformanceStats where
  totalTranslations : Nat
  cacheHits : Nat
  avgLatency : ℚ
  modelLoadTime : Nat
deriving Repr, DecidableEq

/-- Mutable state of a `FastTranslationHelper` instance relevant to the
claims: the translation cache and the performance statistics.  The loaded
translator objects are external resources; their availability and behaviour
are passed to `translateText` as arguments. -/
structure State where
  translationCache : List (String × CachedTranslation)
  performanceStats : PerformanceStats
deriving Repr, DecidableEq

def initialState : State :=
  { translationCache := []
    performanceStats :=
      { totalTranslations := 0, cacheHits := 0, avgLatency := 0, modelLoadTime := 0 } }

/-- Cache key: `` `${text}|${sourceLanguage}|${targetLanguage}` ``. -/
def cacheKey (text sourceLanguage targetLanguage : String) : String :=
  text ++ "|" ++ sourceLanguage ++ "|" ++ targetLanguage

/-- Output of one local model invocation: the `translation_text` and the
optional `score` (`undefined` is `none`; `NaN` is outside the model). -/
abbrev ModelOutput := String × Option ℚ

/-- `createTranslationResult`: builds the result record and updates the
running telemetry (`totalTranslations`, incremental `avgLatency`). -/
def createTranslationResult (originalText translatedText sourceLanguage targetLanguage
    provider : String) (confidence latency : ℚ) (now : Nat) (stats : PerformanceStats) :
    FastTranslationResult × PerformanceStats :=
  let total := stats.totalTranslations + 1
  ({ originalText := originalText
     translatedText := translatedText
     confidence := confidence
     latency := latency
     provider := provider
     detectedLanguage := sourceLanguage
     isSubtitle := true
     timestamp := now },
   { stats with
      totalTranslations := total
      avgLatency := (stats.avgLatency + latency) / (total : ℚ) })

/-- Comparator `(a, b) => a[1].lastAccessed - b[1].lastAccessed`. -/
def lastAccessedLe (a b : String × CachedTranslation) : Bool :=
  decide (a.2.lastAccessed ≤ b.2.lastAccessed)

/-- `cacheTranslation` of `FastTranslationHelper`, with the `MAX_CACHE_SIZE`
constant as a parameter: at capacity, sort all entries by `lastAccessed`
ascending and delete the keys of the oldest `Math.floor(maxCacheSize * 0.2)`
entries, then insert the new entry with `accessCount = 1`.  For the sizes
used (2000, and 10 in the specification scenario) the floating-point product
`maxCacheSize * 0.2` is exact, so the count equals `maxCacheSize / 5`. -/
def cacheTranslationWith (maxCacheSize : Nat) (key : String)
    (result : FastTranslationResult) (now : Nat)
    (cache : List (String × CachedTranslation)) : List (String × CachedTranslation) :=
  let pruned :=
    if maxCacheSize ≤ cache.length then
      let sortedEntries := sortJs lastAccessedLe cache
      let toRemove := maxCacheSize / 5
      removeKeys ((sortedEntries.take toRemove).map (fun e => e.1)) cache
    else cache
  mapSet key { result := result, accessCount := 1, lastAccessed := now } pruned

def MAX_CACHE_SIZE : Nat := 2000

/-- `cacheTranslation` of `FastTranslationHelper` (capacity 2000). -/
def cacheTranslation (key : String) (result : FastTranslationResult) (now : Nat)
    (cache : List (String × CachedTranslation)) : List (String × CachedTranslation) :=
  cacheTranslationWith MAX_CACHE_SIZE key result now cache

/-- `translateText` of `FastTranslationHelper`.  `marian` is `none` when no
MarianMT translator is loaded for the language pair, otherwise the invocation
outcome (a thrown error or the model output); `m2m100` likewise for the
M2M-100 model (`none` models `m2m100Translator === null`, in which case the
`throw` lands in the same `catch` as a model error).  All `Date.now()` calls
of one invocation return `now`, so the latencies of this embedding are 0. -/
def translateText (marian m2m100 : Option (Except Unit ModelOutput))
    (text sourceLanguage targetLanguage : String) (now : Nat) (st : State) :
    FastTranslationResult × State :=
  let key := cacheKey text sourceLanguage targetLanguage
  match mapGet key st.translationCache with
  | some cached =>
    ({ cached.result with latency := 0, provider := "cache" },
     { translationCache :=
         mapSet key
           { cached with accessCount := cached.accessCount + 1, lastAccessed := now }
           st.translationCache
       performanceStats :=
         { st.performanceStats with cacheHits := st.performanceStats.cacheHits + 1 } })
  | none =>
    match marian with
    | some (Except.ok out) =>
      let rs := createTranslationResult text out.1 sourceLanguage targetLanguage
        "marian" (jsOrNum out.2 (mkRat 8 10)) 0 now st.performanceStats
      (rs.1, { translationCache := cacheTranslation key rs.1 now st.translationCache
               performanceStats := rs.2 })
    | some (Except.error _) =>
      let rs := createTranslationResult text text sourceLanguage targetLanguage
        "cache" (mkRat 1 10) 0 now st.performanceStats
      (rs.1, { st with performanceStats := rs.2 })
    | none =>
      match m2m100 with
      | some (Except.ok out) =>
        let rs := createTranslationResult text out.1 sourceLanguage targetLanguage
          "m2m100" (jsOrNum out.2 (mkRat 7 10)) 0 now st.performanceStats
        (rs.1, { translationCache := cacheTranslation key rs.1 now st.translationCache
                 performanceStats := rs.2 })
      | some (Except.error _) =>
        let rs := createTranslationResult text text sourceLanguage targetLanguage
          "cache" (mkRat 1 10) 0 now st.performanceStats
        (rs.1, { st with performanceStats := rs.2 })
      | none =>
        let rs := createTranslationResult text text sourceLanguage targetLanguage
          "cache" (mkRat 1 10) 0 now st.performanceStats
        (rs.1, { st with performanceStats := rs.2 })

/-- `clearCache` of `FastTranslationHelper`: clears the cache and resets the
`cacheHits` counter, nothing else. -/
def clearCache (st : State) : State :=
  { translationCache := []
    performanceStats := { st.performanceStats with cacheHits := 0 } }

end FastTranslationHelper

namespace AreaSelectionHelper

/-! ### Timing model of the monitoring loop

`startMonitoring` installs `setInterval(async () => ..., 1000)`.  A
JavaScript `setInterval` fires its callback every interval regardless of
whether the previous asynchronous callback has settled, and the callback
`await`s `checkRegionForChanges` for each active region; no per-region
"checking" flag exists in the source.  For a single active region whose
change-check takes `duration` milliseconds, the k-th tick therefore starts a
check at time `k * MONITOR_INTERVAL` that is in flight during
`[start, start + duration)`. -/

def MONITOR_INTERVAL : Nat := 1000

/-- Start times of the checks launched by the first `n` timer ticks for a
single active region. -/
def checkStartTimes (n : Nat) : List Nat :=
  (List.range n).map (fun k => (k + 1) * MONITOR_INTERVAL)

/-- Number of change-checks for the region that are in flight at time `t`,
when each check runs for `duration` milliseconds. -/
def inFlightChecks (duration t n : Nat) : Nat :=
  ((checkStartTimes n).filter (fun s => decide (s ≤ t ∧ t < s + duration))).length

end AreaSelectionHelper

/-! ### Concrete providers, oracles and scenarios used by the witnesses and
counterexamples -/

/-- A Gemini response with confidence 0.8, as produced by
`translateWithGemini` on a successful call. -/
def gemSuccess : TranslationHelper.TranslationResult :=
  { originalText := "hi", translatedText := "salut", confidence := mkRat 8 10,
    provider := "gemini", detectedLanguage := "en", timestamp := 1 }

/-- Oracle for a call on which the Gemini request succeeds. -/
def oracleGeminiOk : String → TranslationHelper.ProviderOutcome := fun name =>
  if name == "gemini" then Except.ok (some gemSuccess) else Except.ok none

/-- Oracle for a call on which the Gemini request throws and the Google
request returns `null`. -/
def oracleAllFail : String → TranslationHelper.ProviderOutcome := fun name =>
  if name == "gemini" then Except.error () else Except.ok none

/-- A Google response with confidence 0.7, as produced by
`translateWithGoogle` on a successful call. -/
def googleSuccess : TranslationHelper.TranslationResult :=
  { originalText := "ciao", translatedText := "hello", confidence := mkRat 7 10,
    provider := "google", detectedLanguage := "it", timestamp := 3 }

/-- Oracle for a call on which the Gemini request throws and the Google
request succeeds. -/
def oracleGeminiThrowsGoogleOk : String → TranslationHelper.ProviderOutcome := fun name =>
  if name == "gemini" then Except.error ()
  else if name == "google" then Except.ok (some googleSuccess)
  else Except.ok none

/-- A MarianMT output with `translation_text = "hola"` and score 0.9. -/
def marianOkOut : FastTranslationHelper.ModelOutput := ("hola", some (mkRat 9 10))

/-- A MarianMT output with a low score 0.4 (confidence at most 0.5). -/
def marianLowOut : FastTranslationHelper.ModelOutput := ("x", some (mkRat 4 10))

def dummyFastResult (i : Nat) : FastTranslationHelper.FastTranslationResult :=
  { originalText := "t" ++ toString i, translatedText := "u" ++ toString i,
    confidence := mkRat 9 10, latency := 0, provider := "marian",
    detectedLanguage := "en", isSubtitle := true, timestamp := i }

/-- The capacity-10 eviction scenario on the fast cache: insert the distinct
keys `k1 … k11` with strictly increasing `lastAccessed` stamps. -/
def fastEvictionScenario : List (String × FastTranslationHelper.CachedTranslation) :=
  (List.range 11).foldl
    (fun c i =>
      FastTranslationHelper.cacheTranslationWith 10 ("k" ++ toString (i + 1))
        (dummyFastResult (i + 1)) (i + 1) c)
    []

def dummyTHResult (i : Nat) : TranslationHelper.TranslationResult :=
  { originalText := "t" ++ toString i, translatedText := "u" ++ toString i,
    confidence := mkRat 9 10, provider := "gemini", detectedLanguage := "en",
    timestamp := i }

/-- The capacity-10 eviction scenario on the dispatcher cache: insert the
distinct keys `k1 … k11`. -/
def thEvictionScenario : List (String × TranslationHelper.TranslationResult) :=
  (List.range 11).foldl
    (fun c i =>
      TranslationHelper.cacheTranslationWith 10 ("k" ++ toString (i + 1))
        (dummyTHResult (i + 1)) c)
    []

/-! Basic lemmas about the `Map` model. -/

theorem mapGet_mapSet_self (k : String) (v : α) (m : List (String × α)) :
    mapGet k (mapSet k v m) = some v := by
  induction m with
  | nil => simp [mapSet, mapGet]
  | cons e rest ih =>
    by_cases h : e.1 == k
    · simp [mapSet, h, mapGet]
    · simp [mapSet, h, mapGet, ih]

theorem mem_mapSet {kv : String × α} {k : String} {v : α} {m : List (String × α)}
    (h : kv ∈ mapSet k v m) : kv = (k, v) ∨ kv ∈ m := by
  induction m with
  | nil => simpa [mapSet] using h
  | cons e rest ih =>
    by_cases he : e.1 == k
    · rcases (by simpa [mapSet, he] using h : kv = (k, v) ∨ kv ∈ rest) with h1 | h1
      · exact Or.inl h1
      · exact Or.inr (List.mem_cons_of_mem _ h1)
    · rcases (by simpa [mapSet, he] using h : kv = e ∨ kv ∈ mapSet k v rest) with h1 | h1
      · exact Or.inr (by simp [h1])
      · rcases ih h1 with h2 | h2
        · exact Or.inl h2
        · exact Or.inr (by simp [h2])

theorem mem_mapDelete {kv : String × α} {k : String} {m : List (String × α)}
    (h : kv ∈ mapDelete k m) : kv ∈ m := by
  induction m with
  | nil => simp [mapDelete] at h
  | cons e rest ih =>
    by_cases he : e.1 == k
    · have h1 : kv ∈ rest := by simp [mapDelete, he] at h; exact h
      exact List.mem_cons_of_mem _ h1
    · rcases (by simpa [mapDelete, he] using h : kv = e ∨ kv ∈ mapDelete k rest) with h1 | h1
      · simp [h1]
      · simp [ih h1]

theorem mapHas_of_mem {kv : String × α} {m : List (String × α)} (h : kv ∈ m) :
    mapHas kv.1 m = true := by
  induction m with
  | nil => simp at h
  | cons e rest ih =>
    rcases List.mem_cons.mp h with h1 | h1
    · simp [mapHas, h1]
    · simp [mapHas, ih h1]

theorem length_mapSet_le (k : String) (v : α) (m : List (String × α)) :
    (mapSet k v m).length ≤ m.length + 1 := by
  induction m with
  | nil => simp [mapSet]
  | cons e rest ih =>
    by_cases he : e.1 == k
    · simp [mapSet, he]
    · simpa [mapSet, he] using Nat.succ_le_succ ih

theorem length_mapDelete_le (k : String) (m : List (String × α)) :
    (mapDelete k m).length ≤ m.length := by
  induction m with
  | nil => simp [mapDelete]
  | cons e rest ih =>
    by_cases he : e.1 == k
    · simp [mapDelete, he]
    · simpa [mapDelete, he] using Nat.succ_le_succ ih

theorem length_mapDelete_of_has {k : String} {m : List (String × α)}
    (h : mapHas k m = true) : (mapDelete k m).length + 1 = m.length := by
  induction m with
  | nil => simp [mapHas] at h
  | cons e rest ih =>
    by_cases he : e.1 == k
    · simp [mapDelete, he]
    · have hrest : mapHas k rest = true := by
        simpa [mapHas, he] using h
      simpa [mapDelete, he] using ih hrest

theorem length_removeKeys_le (ks : List String) (m : List (String × α)) :
    (removeKeys ks m).length ≤ m.length := by
  induction ks generalizing m with
  | nil => simp [removeKeys]
  | cons k rest ih =>
    calc (removeKeys (k :: rest) m).length = (removeKeys rest (mapDelete k m)).length := rfl
      _ ≤ (mapDelete k m).length := ih _
      _ ≤ m.length := length_mapDelete_le k m

theorem removeKeys_cons (k : String) (ks : List String) (m : List (String × α)) :
    removeKeys (k :: ks) m = removeKeys ks (mapDelete k m) := rfl

/-! Basic lemmas about the sort model. -/

theorem length_insertOrdered (le : α → α → Bool) (x : α) (l : List α) :
    (insertOrdered le x l).length = l.length + 1 := by
  induction l with
  | nil => simp [insertOrdered]
  | cons y ys ih =>
    by_cases h : le y x
    · simp [insertOrdered, h, ih]
    · simp [insertOrdered, h]

theorem mem_insertOrdered {a x : α} {le : α → α → Bool} {l : List α}
    (h : a ∈ insertOrdered le x l) : a = x ∨ a ∈ l := by
  induction l with
  | nil => simpa [insertOrdered] using h
  | cons y ys ih =>
    by_cases hle : le y x
    · rcases (by simpa [insertOrdered, hle] using h : a = y ∨ a ∈ insertOrdered le x ys) with h1 | h1
      · exact Or.inr (by simp [h1])
      · rcases ih h1 with h2 | h2
        · exact Or.inl h2
        · exact Or.inr (by simp [h2])
    · rcases (by simpa [insertOrdered, hle] using h : a = x ∨ a = y ∨ a ∈ ys) with h1 | h1
      · exact Or.inl h1
      · exact Or.inr (by simpa using h1)

theorem length_sortJs_aux (le : α → α → Bool) (l acc : List α) :
    (l.foldl (fun acc x => insertOrdered le x acc) acc).length = acc.length + l.length := by
  induction l generalizing acc with
  | nil => simp
  | cons x xs ih =>
    calc (List.foldl (fun acc x => insertOrdered le x acc) acc (x :: xs)).length
        = ((x :: xs).tail.foldl (fun acc x => insertOrdered le x acc) (insertOrdered le x acc)).length := rfl
      _ = (insertOrdered le x acc).length + xs.length := ih _
      _ = acc.length + (x :: xs).length := by
          rw [length_insertOrdered]; simp; omega

theorem length_sortJs (le : α → α → Bool) (l : List α) :
    (sortJs le l).length = l.length := by
  simpa using length_sortJs_aux le l []

theorem mem_sortJs_aux {a : α} {le : α → α → Bool} {l acc : List α}
    (h : a ∈ l.foldl (fun acc x => insertOrdered le x acc) acc) : a ∈ acc ∨ a ∈ l := by
  induction l generalizing acc with
  | nil => exact Or.inl (by simpa using h)
  | cons x xs ih =>
    rcases ih (by simpa using h) with h1 | h1
    · rcases mem_insertOrdered h1 with h2 | h2
      · exact Or.inr (by simp [h2])
      · exact Or.inl h2
    · exact Or.inr (by simp [h1])

theorem mem_sortJs {a : α} {le : α → α → Bool} {l : List α}
    (h : a ∈ sortJs le l) : a ∈ l := by
  rcases mem_sortJs_aux (by simpa [sortJs] using h) with h1 | h1
  · simp at h1
  · exact h1

/-- If a boolean predicate can hold for at most one element of a duplicate-free
list, then filtering by it keeps at most one element. -/
theorem length_filter_le_one {p : α → Bool} :
    ∀ (l : List α), l.Nodup → (∀ a ∈ l, ∀ b ∈ l, p a = true → p b = true → a = b) →
      (l.filter p).length ≤ 1
  | [], _, _ => by simp
  | x :: xs, hnd, h => by
    have hnd' : xs.Nodup := (List.nodup_cons.mp hnd).2
    have hx : x ∉ xs := (List.nodup_cons.mp hnd).1
    by_cases hpx : p x = true
    · have hnil : xs.filter p = [] := by
        apply List.filter_eq_nil_iff.mpr
        intro a ha hpa
        exact hx (by
          have := h a (List.mem_cons_of_mem _ ha) x (List.mem_cons_self _ _) hpa hpx
          simpa [this] using ha)
      simp [List.filter_cons, hpx, hnil]
    · have : (xs.filter p).length ≤ 1 :=
        length_filter_le_one xs hnd'
          (fun a ha b hb hpa hpb => h a (List.mem_cons_of_mem _ ha) b (List.mem_cons_of_mem _ hb) hpa hpb)
      simpa [List.filter_cons, hpx] using this

/-! ### Equation lemmas for the dispatcher `translateText` -/

theorem TranslationHelper.translateText_hit (oracle : String → ProviderOutcome)
    (text tgt : String) (src : Option String) (now : Nat) (st : State)
    (r : TranslationResult)
    (h : mapGet (cacheKey text tgt src) st.translationCache = some r) :
    translateText oracle text tgt src now st = (r, st) := by
  unfold translateText
  simp [h]

theorem TranslationHelper.translateText_accepted (oracle : String → ProviderOutcome)
    (text tgt : String) (src : Option String) (now : Nat) (st : State)
    (r : TranslationResult)
    (hmiss : mapGet (cacheKey text tgt src) st.translationCache = none)
    (hloop : providerLoop oracle text src now (sortJs providerLe st.providers) = some r) :
    translateText oracle text tgt src now st =
      (r, { translationCache := cacheTranslation (cacheKey text tgt src) r st.translationCache
            providers := sortJs providerLe st.providers }) := by
  unfold translateText
  simp [hmiss, hloop]

theorem TranslationHelper.translateText_exhausted (oracle : String → ProviderOutcome)
    (text tgt : String) (src : Option String) (now : Nat) (st : State)
    (hmiss : mapGet (cacheKey text tgt src) st.translationCache = none)
    (hloop : providerLoop oracle text src now (sortJs providerLe st.providers) = none) :
    translateText oracle text tgt src now st =
      (fallbackResult text src now,
       { translationCache := st.translationCache
         providers := sortJs providerLe st.providers }) := by
  unfold translateText
  simp [hmiss, hloop]

/-! ### Lemmas about the provider loop -/

theorem TranslationHelper.providerLoop_nil (oracle : String → ProviderOutcome)
    (text : String) (src : Option String) (now : Nat) :
    providerLoop oracle text src now [] = none := rfl

theorem TranslationHelper.providerLoop_cons (oracle : String → ProviderOutcome)
    (text : String) (src : Option String) (now : Nat) (p : Provider)
    (rest : List Provider) :
    providerLoop oracle text src now (p :: rest) =
      if p.enabled = true then
        match invokeProvider oracle p.name text src now with
        | Except.ok (some r) =>
          if mkRat 1 2 < r.confidence then some r
          else providerLoop oracle text src now rest
        | _ => providerLoop oracle text src now rest
      else providerLoop oracle text src now rest := rfl

theorem TranslationHelper.providerLoop_none_of_rejected (oracle : String → ProviderOutcome)
    (text : String) (src : Option String) (now : Nat) :
    ∀ ps : List Provider,
      (∀ p ∈ ps, p.enabled = true →
        isAccepted (invokeProvider oracle p.name text src now) = false) →
      providerLoop oracle text src now ps = none
  | [], _ => rfl
  | p :: rest, h => by
    have hrest : providerLoop oracle text src now rest = none :=
      providerLoop_none_of_rejected oracle text src now rest
        (fun q hq hqe => h q (List.mem_cons_of_mem _ hq) hqe)
    rw [providerLoop_cons]
    by_cases hp : p.enabled
    · have hrej := h p (List.mem_cons_self _ _) hp
      cases hinv : invokeProvider oracle p.name text src now with
      | error e => simp [hp, hrest]
      | ok o =>
        cases o with
        | none => simp [hp, hrest]
        | some r =>
          have hc : ¬ (mkRat 1 2 < r.confidence) := by
            simpa [isAccepted, hinv] using hrej
          simp [hp, hc, hrest]
    · simp [hp, hrest]

theorem TranslationHelper.providerLoop_append_of_rejected (oracle : String → ProviderOutcome)
    (text : String) (src : Option String) (now : Nat) (rest : List Provider) :
    ∀ pre : List Provider,
      (∀ p ∈ pre, p.enabled = true →
        isAccepted (invokeProvider oracle p.name text src now) = false) →
      providerLoop oracle text src now (pre ++ rest) =
        providerLoop oracle text src now rest
  | [], _ => rfl
  | p :: pre, h => by
    have hind : providerLoop oracle text src now (pre ++ rest) =
        providerLoop oracle text src now rest :=
      providerLoop_append_of_rejected oracle text src now rest pre
        (fun q hq hqe => h q (List.mem_cons_of_mem _ hq) hqe)
    rw [List.cons_append, providerLoop_cons]
    by_cases hp : p.enabled
    · have hrej := h p (List.mem_cons_self _ _) hp
      cases hinv : invokeProvider oracle p.name text src now with
      | error e => simp [hp, hind]
      | ok o =>
        cases o with
        | none => simp [hp, hind]
        | some r =>
          have hc : ¬ (mkRat 1 2 < r.confidence) := by
            simpa [isAccepted, hinv] using hrej
          simp [hp, hc, hind]
    · simp [hp, hind]

theorem TranslationHelper.providerLoop_cons_accepted (oracle : String → ProviderOutcome)
    (text : String) (src : Option String) (now : Nat) (p : Provider)
    (rest : List Provider) (r : TranslationResult)
    (hp : p.enabled = true)
    (hinv : invokeProvider oracle p.name text src now = Except.ok (some r))
    (hconf : mkRat 1 2 < r.confidence) :
    providerLoop oracle text src now (p :: rest) = some r := by
  rw [providerLoop_cons]
  simp [hp, hinv, hconf]

theorem TranslationHelper.providerLoop_confidence (oracle : String → ProviderOutcome)
    (text : String) (src : Option String) (now : Nat) :
    ∀ (ps : List Provider) (r : TranslationResult),
      providerLoop oracle text src now ps = some r → mkRat 1 2 < r.confidence
  | [], r, h => by simp [providerLoop_nil] at h
  | p :: rest, r, h => by
    rw [providerLoop_cons] at h
    by_cases hp : p.enabled
    · rw [if_pos hp] at h
      cases hinv : invokeProvider oracle p.name text src now with
      | error e =>
        rw [hinv] at h
        exact providerLoop_confidence oracle text src now rest r h
      | ok o =>
        cases o with
        | none =>
          rw [hinv] at h
          exact providerLoop_confidence oracle text src now rest r h
        | some r0 =>
          rw [hinv] at h
          by_cases hc : mkRat 1 2 < r0.confidence
          · simp only [if_pos hc] at h
            cases h
            exact hc
          · simp only [if_neg hc] at h
            exact providerLoop_confidence oracle text src now rest r h
    · rw [if_neg hp] at h
      exact providerLoop_confidence oracle text src now rest r h

/-! ### Equation lemmas for the fast `translateText` -/

theorem FastTranslationHelper.fastTranslateText_hit (marian m2m100 : Option (Except Unit ModelOutput))
    (text src tgt : String) (now : Nat) (st : State) (cached : CachedTranslation)
    (h : mapGet (cacheKey text src tgt) st.translationCache = some cached) :
    translateText marian m2m100 text src tgt now st =
      ({ cached.result with latency := 0, provider := "cache" },
       { translationCache :=
           mapSet (cacheKey text src tgt)
             { cached with accessCount := cached.accessCount + 1, lastAccessed := now }
             st.translationCache
         performanceStats :=
           { st.performanceStats with cacheHits := st.performanceStats.cacheHits + 1 } }) := by
  unfold translateText
  simp [h]

theorem FastTranslationHelper.translateText_marian_ok (out : ModelOutput)
    (m2m100 : Option (Except Unit ModelOutput)) (text src tgt : String) (now : Nat)
    (st : State)
    (hmiss : mapGet (cacheKey text src tgt) st.translationCache = none) :
    translateText (some (Except.ok out)) m2m100 text src tgt now st =
      ((createTranslationResult text out.1 src tgt "marian" (jsOrNum out.2 (mkRat 8 10))
          0 now st.performanceStats).1,
       { translationCache :=
           cacheTranslation (cacheKey text src tgt)
             (createTranslationResult text out.1 src tgt "marian" (jsOrNum out.2 (mkRat 8 10))
               0 now st.performanceStats).1 now st.translationCache
         performanceStats :=
           (createTranslationResult text out.1 src tgt "marian" (jsOrNum out.2 (mkRat 8 10))
             0 now st.performanceStats).2 }) := by
  unfold translateText
  simp [hmiss]

/-! ### Lemmas about the two cache-insert operations -/

theorem TranslationHelper.mapGet_cacheTranslationWith (maxCacheSize : Nat) (key : String)
    (result : TranslationResult) (cache : List (String × TranslationResult)) :
    mapGet key (cacheTranslationWith maxCacheSize key result cache) = some result := by
  unfold cacheTranslationWith
  exact mapGet_mapSet_self _ _ _

theorem FastTranslationHelper.fastMapGet_cacheTranslationWith (maxCacheSize : Nat) (key : String)
    (result : FastTranslationResult) (now : Nat)
    (cache : List (String × CachedTranslation)) :
    mapGet key (cacheTranslationWith maxCacheSize key result now cache) =
      some { result := result, accessCount := 1, lastAccessed := now } := by
  unfold cacheTranslationWith
  exact mapGet_mapSet_self _ _ _

theorem TranslationHelper.mem_cacheTranslationWith {kv : String × TranslationResult}
    {maxCacheSize : Nat} {key : String} {result : TranslationResult}
    {cache : List (String × TranslationResult)}
    (h : kv ∈ cacheTranslationWith maxCacheSize key result cache) :
    kv = (key, result) ∨ kv ∈ cache := by
  unfold cacheTranslationWith at h
  rcases mem_mapSet h with h1 | h1
  · exact Or.inl h1
  · by_cases hbr : maxCacheSize ≤ cache.length
    · simp only [if_pos hbr] at h1
      cases cache with
      | nil => exact Or.inr h1
      | cons e rest => exact Or.inr (mem_mapDelete h1)
    · simp only [if_neg hbr] at h1
      exact Or.inr h1

theorem TranslationHelper.length_cacheTranslationWith_le (maxCacheSize : Nat) (key : String)
    (result : TranslationResult) (cache : List (String × TranslationResult))
    (hC : 1 ≤ maxCacheSize) (h : cache.length ≤ maxCacheSize) :
    (cacheTranslationWith maxCacheSize key result cache).length ≤ maxCacheSize := by
  unfold cacheTranslationWith
  by_cases hbr : maxCacheSize ≤ cache.length
  · have hlen : cache.length = maxCacheSize := le_antisymm h hbr
    cases cache with
    | nil => simp at hlen; omega
    | cons e rest =>
      simp only [if_pos hbr]
      have hdel : mapDelete e.1 (e :: rest) = rest := by
        simp [mapDelete]
      rw [hdel]
      have := length_mapSet_le key result rest
      have hr : rest.length + 1 = maxCacheSize := by simpa using hlen
      omega
  · simp only [if_neg hbr]
    have := length_mapSet_le key result cache
    omega

theorem FastTranslationHelper.fastLength_cacheTranslationWith_le (maxCacheSize : Nat) (key : String)
    (result : FastTranslationResult) (now : Nat)
    (cache : List (String × CachedTranslation))
    (hC : 5 ≤ maxCacheSize) (h : cache.length ≤ maxCacheSize) :
    (cacheTranslationWith maxCacheSize key result now cache).length ≤ maxCacheSize := by
  unfold cacheTranslationWith
  by_cases hbr : maxCacheSize ≤ cache.length
  · have hlen : cache.length = maxCacheSize := le_antisymm h hbr
    simp only [if_pos hbr]
    have hsortlen : (sortJs lastAccessedLe cache).length = maxCacheSize := by
      rw [length_sortJs, hlen]
    have hsortne : sortJs lastAccessedLe cache ≠ [] := by
      intro hnil
      rw [hnil] at hsortlen
      simp at hsortlen
      omega
    obtain ⟨s, srest, hs⟩ := List.exists_cons_of_ne_nil hsortne
    have hdiv : 1 ≤ maxCacheSize / 5 := (Nat.one_le_div_iff (by omega)).mpr hC
    obtain ⟨n, hn⟩ : ∃ n, maxCacheSize / 5 = n + 1 := ⟨maxCacheSize / 5 - 1, by omega⟩
    have htake : (sortJs lastAccessedLe cache).take (maxCacheSize / 5) =
        s :: srest.take n := by
      rw [hs, hn]
      rfl
    have hmem : s ∈ cache := mem_sortJs (by rw [hs]; exact List.mem_cons_self _ _)
    have hhas : mapHas s.1 cache = true := mapHas_of_mem hmem
    have hdel : (mapDelete s.1 cache).length + 1 = maxCacheSize := by
      rw [length_mapDelete_of_has hhas, hlen]
    rw [htake]
    simp only [List.map_cons]
    rw [removeKeys_cons]
    have h1 : (removeKeys (List.map (fun e => e.1) (srest.take n)) (mapDelete s.1 cache)).length ≤
        (mapDelete s.1 cache).length := length_removeKeys_le _ _
    have h2 := length_mapSet_le key
      ({ result := result, accessCount := 1, lastAccessed := now } : CachedTranslation)
      (removeKeys (List.map (fun e => e.1) (srest.take n)) (mapDelete s.1 cache))
    omega
  · simp only [if_neg hbr]
    have := length_mapSet_le key
      ({ result := result, accessCount := 1, lastAccessed := now } : CachedTranslation) cache
    omega

/-! ### The dispatcher cache stores only gated results -/

theorem TranslationHelper.cacheConf_applyOp (st : State) (op : Op)
    (h : ∀ kv ∈ st.translationCache, mkRat 1 2 < kv.2.confidence) :
    ∀ kv ∈ (applyOp st op).translationCache, mkRat 1 2 < kv.2.confidence := by
  cases op with
  | clearCache => simp [applyOp, clearCache]
  | setProviderEnabled name b => simpa [applyOp] using h
  | translate oracle text tgt src now =>
    intro kv hkv
    have happ : applyOp st (Op.translate oracle text tgt src now) =
        (translateText oracle text tgt src now st).2 := rfl
    rw [happ] at hkv
    cases hget : mapGet (cacheKey text tgt src) st.translationCache with
    | some r =>
      rw [translateText_hit oracle text tgt src now st r hget] at hkv
      exact h kv hkv
    | none =>
      cases hloop : providerLoop oracle text src now (sortJs providerLe st.providers) with
      | none =>
        rw [translateText_exhausted oracle text tgt src now st hget hloop] at hkv
        exact h kv hkv
      | some r =>
        rw [translateText_accepted oracle text tgt src now st r hget hloop] at hkv
        rcases mem_cacheTranslationWith hkv with h1 | h1
        · rw [h1]
          exact providerLoop_confidence oracle text src now _ r hloop
        · exact h kv h1

theorem TranslationHelper.cacheConf_runOps :
    ∀ (ops : List Op) (st : State),
      (∀ kv ∈ st.translationCache, mkRat 1 2 < kv.2.confidence) →
      ∀ kv ∈ (runOps ops st).translationCache, mkRat 1 2 < kv.2.confidence
  | [], st, h => h
  | op :: ops, st, h => by
    have hstep := cacheConf_applyOp st op h
    exact cacheConf_runOps ops (applyOp st op) hstep

/-! ### Capacity bound over arbitrary insert sequences -/

theorem TranslationHelper.length_foldl_cacheTranslation :
    ∀ (l : List (String × TranslationResult)) (c : List (String × TranslationResult)),
      c.length ≤ 1000 →
      (l.foldl (fun c kv => cacheTranslation kv.1 kv.2 c) c).length ≤ 1000
  | [], _, h => h
  | kv :: l, c, h => by
    have hstep : (cacheTranslation kv.1 kv.2 c).length ≤ 1000 :=
      length_cacheTranslationWith_le 1000 kv.1 kv.2 c (by omega) h
    exact length_foldl_cacheTranslation l (cacheTranslation kv.1 kv.2 c) hstep

theorem FastTranslationHelper.fastLength_foldl_cacheTranslation :
    ∀ (l : List (String × FastTranslationResult × Nat))
      (c : List (String × CachedTranslation)),
      c.length ≤ 2000 →
      (l.foldl (fun c x => cacheTranslation x.1 x.2.1 x.2.2 c) c).length ≤ 2000
  | [], _, h => h
  | x :: l, c, h => by
    have hstep : (cacheTranslation x.1 x.2.1 x.2.2 c).length ≤ 2000 :=
      fastLength_cacheTranslationWith_le 2000 x.1 x.2.1 x.2.2 c (by omega) h
    exact fastLength_foldl_cacheTranslation l (cacheTranslation x.1 x.2.1 x.2.2 c) hstep

/-! ### Frame lemmas for `setProviderEnabled` -/

theorem TranslationHelper.setProviderEnabled_not_found :
    ∀ (ps : List Provider) (name : String) (b : Bool),
      (∀ q ∈ ps, q.name ≠ name) → setProviderEnabled name b ps = ps
  | [], _, _, _ => rfl
  | p :: ps, name, b, h => by
    have hp : p.name ≠ name := h p (List.mem_cons_self _ _)
    simp [setProviderEnabled, hp,
      setProviderEnabled_not_found ps name b
        (fun q hq => h q (List.mem_cons_of_mem _ hq))]

theorem TranslationHelper.map_enable_id :
    ∀ (ps : List Provider) (name : String) (b : Bool),
      (∀ q ∈ ps, q.name ≠ name) →
      ps.map (fun q => if q.name = name then { q with enabled := b } else q) = ps
  | [], _, _, _ => rfl
  | p :: ps, name, b, h => by
    have hp : p.name ≠ name := h p (List.mem_cons_self _ _)
    simp [hp,
      map_enable_id ps name b (fun q hq => h q (List.mem_cons_of_mem _ hq))]

theorem TranslationHelper.setProviderEnabled_found :
    ∀ (ps : List Provider) (name : String) (b : Bool),
      (ps.map Provider.name).Nodup →
      ∀ p ∈ ps, p.name = name →
      setProviderEnabled name b ps =
        ps.map (fun q => if q.name = name then { q with enabled := b } else q)
  | [], _, _, _, p, hp, _ => by simp at hp
  | p0 :: ps, name, b, hnd, p, hp, hpname => by
    have hnd' : (ps.map Provider.name).Nodup :=
      (List.nodup_cons.mp (by simpa using hnd)).2
    by_cases h0 : p0.name = name
    · have hnotin : p0.name ∉ ps.map Provider.name :=
        (List.nodup_cons.mp (by simpa using hnd)).1
      have hrestne : ∀ q ∈ ps, q.name ≠ name := by
        intro q hq hqname
        exact hnotin (by
          rw [h0, ← hqname]
          exact List.mem_map_of_mem _ hq)
      simp [setProviderEnabled, h0, map_enable_id ps name b hrestne]
    · have hp' : p ∈ ps := by
        rcases List.mem_cons.mp hp with h1 | h1
        · exact absurd (by rw [← h1]; exact hpname) h0
        · exact h1
      simp [setProviderEnabled, h0,
        setProviderEnabled_found ps name b hnd' p hp' hpname]

/-! ## Claims -/

/-- Claim C1 counterexample.  The claim states that a second `Translate` call
with the same arguments after a first accepted call returns a result tagged
`provider = "cache"`.  For the dispatcher (`TranslationHelper`), whose
cache-hit path the claim cites, the second call returns the cached result
unchanged: after a first call accepted from Gemini, the second call's
provider tag is `"gemini"`, not `"cache"`. -/
theorem claim1_counterexample :
    (TranslationHelper.translateText oracleGeminiOk "hi" "fr" none 2
        (TranslationHelper.translateText oracleGeminiOk "hi" "fr" none 1
          TranslationHelper.initialState).2).1.provider = "gemini" ∧
    ¬ ((TranslationHelper.translateText oracleGeminiOk "hi" "fr" none 2
        (TranslationHelper.translateText oracleGeminiOk "hi" "fr" none 1
          TranslationHelper.initialState).2).1.provider = "cache") := by
  exact ⟨by decide, by decide⟩

/-- Claim C1 (amended).  After a first successful `Translate` call, a second
call with the same arguments is served from the cache without invoking any
translation provider (the result does not depend on the providers' behaviour
during the second call).  In `FastTranslationHelper` the second call returns
the first result tagged `provider = "cache"`, increments the `cacheHits`
counter, and bumps the entry's access metadata to `accessCount = 2` and
`lastAccessed = now`.  In `TranslationHelper` the second call returns the
cached result unchanged — tagged with the original provider, with no
telemetry or access metadata, since none exist there. -/
theorem claim1_theorem
    (out : FastTranslationHelper.ModelOutput)
    (m2m1 mar2 m2m2 : Option (Except Unit FastTranslationHelper.ModelOutput))
    (ftext fsrc ftgt : String) (n1 n2 : Nat) (fst : FastTranslationHelper.State)
    (hfmiss : mapGet (FastTranslationHelper.cacheKey ftext fsrc ftgt)
      fst.translationCache = none)
    (hfconf : mkRat 1 2 < jsOrNum out.2 (mkRat 8 10))
    (oracle1 oracle2 : String → TranslationHelper.ProviderOutcome)
    (ttext ttgt : String) (tsrc : Option String) (m1 m2 : Nat)
    (tst : TranslationHelper.State) (r0 : TranslationHelper.TranslationResult)
    (htmiss : mapGet (TranslationHelper.cacheKey ttext ttgt tsrc)
      tst.translationCache = none)
    (hloop : TranslationHelper.providerLoop oracle1 ttext tsrc m1
      (sortJs TranslationHelper.providerLe tst.providers) = some r0) :
    (FastTranslationHelper.translateText mar2 m2m2 ftext fsrc ftgt n2
        (FastTranslationHelper.translateText (some (Except.ok out)) m2m1
          ftext fsrc ftgt n1 fst).2).1 =
      { (FastTranslationHelper.translateText (some (Except.ok out)) m2m1
          ftext fsrc ftgt n1 fst).1 with latency := 0, provider := "cache" } ∧
    (FastTranslationHelper.translateText mar2 m2m2 ftext fsrc ftgt n2
        (FastTranslationHelper.translateText (some (Except.ok out)) m2m1
          ftext fsrc ftgt n1 fst).2).2.performanceStats.cacheHits =
      (FastTranslationHelper.translateText (some (Except.ok out)) m2m1
        ftext fsrc ftgt n1 fst).2.performanceStats.cacheHits + 1 ∧
    mapGet (FastTranslationHelper.cacheKey ftext fsrc ftgt)
        (FastTranslationHelper.translateText mar2 m2m2 ftext fsrc ftgt n2
          (FastTranslationHelper.translateText (some (Except.ok out)) m2m1
            ftext fsrc ftgt n1 fst).2).2.translationCache =
      some { result := (FastTranslationHelper.translateText (some (Except.ok out)) m2m1
               ftext fsrc ftgt n1 fst).1
             accessCount := 2
             lastAccessed := n2 } ∧
    TranslationHelper.translateText oracle2 ttext ttgt tsrc m2
        (TranslationHelper.translateText oracle1 ttext ttgt tsrc m1 tst).2 =
      ((TranslationHelper.translateText oracle1 ttext ttgt tsrc m1 tst).1,
       (TranslationHelper.translateText oracle1 ttext ttgt tsrc m1 tst).2) := by
  have e1 := FastTranslationHelper.translateText_marian_ok out m2m1 ftext fsrc ftgt n1 fst hfmiss
  have hget : mapGet (FastTranslationHelper.cacheKey ftext fsrc ftgt)
      (FastTranslationHelper.translateText (some (Except.ok out)) m2m1
        ftext fsrc ftgt n1 fst).2.translationCache =
      some { result := (FastTranslationHelper.createTranslationResult ftext out.1 fsrc ftgt
               "marian" (jsOrNum out.2 (mkRat 8 10)) 0 n1 fst.performanceStats).1
             accessCount := 1
             lastAccessed := n1 } := by
    rw [e1]
    exact FastTranslationHelper.fastMapGet_cacheTranslationWith _ _ _ _ _
  have e2 := FastTranslationHelper.fastTranslateText_hit mar2 m2m2 ftext fsrc ftgt n2
    (FastTranslationHelper.translateText (some (Except.ok out)) m2m1
      ftext fsrc ftgt n1 fst).2
    { result := (FastTranslationHelper.createTranslationResult ftext out.1 fsrc ftgt
        "marian" (jsOrNum out.2 (mkRat 8 10)) 0 n1 fst.performanceStats).1
      accessCount := 1
      lastAccessed := n1 } hget
  have e3 := TranslationHelper.translateText_accepted oracle1 ttext ttgt tsrc m1 tst r0
    htmiss hloop
  have hget2 : mapGet (TranslationHelper.cacheKey ttext ttgt tsrc)
      (TranslationHelper.translateText oracle1 ttext ttgt tsrc m1 tst).2.translationCache =
      some r0 := by
    rw [e3]
    exact TranslationHelper.mapGet_cacheTranslationWith _ _ _ _
  have e4 := TranslationHelper.translateText_hit oracle2 ttext ttgt tsrc m2
    (TranslationHelper.translateText oracle1 ttext ttgt tsrc m1 tst).2 r0 hget2
  refine ⟨?_, ?_, ?_, ?_⟩
  · rw [e2, e1]
  · rw [e2]
  · rw [e2, e1]
    exact mapGet_mapSet_self _ _ _
  · rw [e4, e3]

theorem claim1_witness :
    mapGet (FastTranslationHelper.cacheKey "hi" "en" "es")
      FastTranslationHelper.initialState.translationCache = none ∧
    mkRat 1 2 < jsOrNum marianOkOut.2 (mkRat 8 10) ∧
    mapGet (TranslationHelper.cacheKey "hi" "fr" none)
      TranslationHelper.initialState.translationCache = none ∧
    TranslationHelper.providerLoop oracleGeminiOk "hi" none 1
      (sortJs TranslationHelper.providerLe TranslationHelper.initialState.providers) =
      some gemSuccess ∧
    (FastTranslationHelper.translateText none none "hi" "en" "es" 9
        (FastTranslationHelper.translateText (some (Except.ok marianOkOut)) none
          "hi" "en" "es" 5 FastTranslationHelper.initialState).2).1.provider = "cache" ∧
    (TranslationHelper.translateText oracleGeminiOk "hi" "fr" none 2
        (TranslationHelper.translateText oracleGeminiOk "hi" "fr" none 1
          TranslationHelper.initialState).2).1 =
      (TranslationHelper.translateText oracleGeminiOk "hi" "fr" none 1
        TranslationHelper.initialState).1 := by
  have h := claim1_theorem marianOkOut none none none "hi" "en" "es" 5 9
    FastTranslationHelper.initialState (by decide) (by decide)
    oracleGeminiOk oracleGeminiOk "hi" "fr" none 1 2 TranslationHelper.initialState
    gemSuccess (by decide) (by decide)
  refine ⟨by decide, by decide, by decide, by decide, ?_, ?_⟩
  · rw [h.1]
  · rw [h.2.2.2]

/-- Claim C2 counterexample.  The claim states that the synthetic fallback
result has `provider = "none"`; in the source the fallback is written with
`provider: 'offline'`.  With every provider failing (Gemini throws, Google
returns `null`, the offline placeholder only reaches confidence 0.3), the
returned provider tag is `"offline"`, not `"none"`. -/
theorem claim2_counterexample :
    (TranslationHelper.translateText oracleAllFail "hi" "en" none 5
      TranslationHelper.initialState).1.provider = "offline" ∧
    ¬ ((TranslationHelper.translateText oracleAllFail "hi" "en" none 5
      TranslationHelper.initialState).1.provider = "none") ∧
    (TranslationHelper.translateText oracleAllFail "hi" "en" none 5
      TranslationHelper.initialState).1.confidence = 0 ∧
    (TranslationHelper.translateText oracleAllFail "hi" "en" none 5
      TranslationHelper.initialState).1.translatedText = "hi" ∧
    (TranslationHelper.translateText oracleAllFail "hi" "en" none 5
      TranslationHelper.initialState).2.translationCache = [] := by
  exact ⟨by decide, by decide, by decide, by decide, by decide⟩

/-- Claim C2 (amended).  If every enabled provider is exhausted without an
accepted result, `translateText` returns the synthetic fallback — the
original text, confidence 0, `detectedLanguage` the requested source or
`"unknown"`, and provider tag `"offline"` (not `"none"` as claimed) — and the
cache is left unchanged, so an identical follow-up request misses the cache
and re-attempts all providers. -/
theorem claim2_theorem (oracle : String → TranslationHelper.ProviderOutcome)
    (text tgt : String) (src : Option String) (now : Nat)
    (st : TranslationHelper.State)
    (hmiss : mapGet (TranslationHelper.cacheKey text tgt src) st.translationCache = none)
    (hall : ∀ p ∈ sortJs TranslationHelper.providerLe st.providers, p.enabled = true →
      TranslationHelper.isAccepted
        (TranslationHelper.invokeProvider oracle p.name text src now) = false) :
    (TranslationHelper.translateText oracle text tgt src now st).1.translatedText = text ∧
    (TranslationHelper.translateText oracle text tgt src now st).1.confidence = 0 ∧
    (TranslationHelper.translateText oracle text tgt src now st).1.provider = "offline" ∧
    (TranslationHelper.translateText oracle text tgt src now st).1.detectedLanguage =
      jsOrStr src "unknown" ∧
    (TranslationHelper.translateText oracle text tgt src now st).2.translationCache =
      st.translationCache ∧
    mapGet (TranslationHelper.cacheKey text tgt src)
      (TranslationHelper.translateText oracle text tgt src now st).2.translationCache =
      none := by
  have hloop := TranslationHelper.providerLoop_none_of_rejected oracle text src now _ hall
  have e := TranslationHelper.translateText_exhausted oracle text tgt src now st hmiss hloop
  rw [e]
  exact ⟨rfl, rfl, rfl, rfl, rfl, hmiss⟩

theorem claim2_witness :
    (∀ p ∈ sortJs TranslationHelper.providerLe TranslationHelper.initialState.providers,
      p.enabled = true →
      TranslationHelper.isAccepted
        (TranslationHelper.invokeProvider oracleAllFail p.name "hi" none 5) = false) ∧
    (TranslationHelper.translateText oracleAllFail "hi" "en" none 5
      TranslationHelper.initialState).1.confidence = 0 ∧
    mapGet (TranslationHelper.cacheKey "hi" "en" none)
      (TranslationHelper.translateText oracleAllFail "hi" "en" none 5
        TranslationHelper.initialState).2.translationCache = none := by
  refine ⟨by decide, ?_, ?_⟩
  · exact (claim2_theorem oracleAllFail "hi" "en" none 5 TranslationHelper.initialState
      (by decide) (by decide)).2.1
  · exact (claim2_theorem oracleAllFail "hi" "en" none 5 TranslationHelper.initialState
      (by decide) (by decide)).2.2.2.2.2

/-- Claim C3 counterexample.  The claim asserts at most one in-flight
change-check per region even when a check outlives the 1000 ms tick
interval.  The source's `setInterval` callback has no per-region guard, so
with a single active region whose check takes 1500 ms, two checks for that
region are in flight at time 2000 ms (the checks started at 1000 ms and at
2000 ms). -/
theorem claim3_counterexample :
    AreaSelectionHelper.inFlightChecks 1500 2000 3 = 2 ∧
    ¬ (AreaSelectionHelper.inFlightChecks 1500 2000 3 ≤ 1) := by
  exact ⟨by decide, by decide⟩

/-- Claim C3 (amended).  The monitoring loop has no per-region `Checking`
guard; at most one change-check per region is in flight only under the
additional assumption that each check completes within the 1000 ms tick
interval.  For a single active region whose checks take `duration ≤
MONITOR_INTERVAL`, at most one check is in flight at any time; when a check
outlives the interval the invariant fails (see the counterexample). -/
theorem claim3_theorem (duration t n : Nat)
    (hd : duration ≤ AreaSelectionHelper.MONITOR_INTERVAL) :
    AreaSelectionHelper.inFlightChecks duration t n ≤ 1 := by
  unfold AreaSelectionHelper.inFlightChecks
  apply length_filter_le_one
  · unfold AreaSelectionHelper.checkStartTimes
    apply List.Nodup.map
    · intro a b hab
      have hM : AreaSelectionHelper.MONITOR_INTERVAL = 1000 := rfl
      have hab2 : (a + 1) * 1000 = (b + 1) * 1000 := by simpa [hM] using hab
      omega
    · exact List.nodup_range n
  · intro a ha b hb hpa hpb
    unfold AreaSelectionHelper.checkStartTimes at ha hb
    obtain ⟨j, hj, hfa⟩ := List.mem_map.mp ha
    obtain ⟨k, hk, hfb⟩ := List.mem_map.mp hb
    have hpa' := of_decide_eq_true hpa
    have hpb' := of_decide_eq_true hpb
    have hM : AreaSelectionHelper.MONITOR_INTERVAL = 1000 := rfl
    have ha2 : (j + 1) * 1000 = a := by simpa [hM] using hfa
    have hb2 : (k + 1) * 1000 = b := by simpa [hM] using hfb
    rw [hM] at hd
    omega

theorem claim3_witness :
    800 ≤ AreaSelectionHelper.MONITOR_INTERVAL ∧
    AreaSelectionHelper.inFlightChecks 800 1200 3 ≤ 1 :=
  ⟨by decide, claim3_theorem 800 1200 3 (by decide)⟩

/-- Claim C4 counterexample.  The claim states that every cache insert at
capacity removes exactly `floor(C * 0.2)` least-recently-accessed entries, so
that with `C = 10` an eleventh distinct key leaves size 9.  The dispatcher
cache (`TranslationHelper.cacheTranslation`) removes exactly one entry — the
oldest-inserted key — so the same scenario leaves size 10, with `k2` still
present. -/
theorem claim4_counterexample :
    thEvictionScenario.length = 10 ∧
    thEvictionScenario.length ≠ 9 ∧
    mapHas "k1" thEvictionScenario = false ∧
    mapHas "k2" thEvictionScenario = true := by
  exact ⟨by decide, by decide, by decide, by decide⟩

/-- Claim C4 (amended).  Only the fast-translation cache implements batch
eviction: an insert finding the cache at capacity removes the
`floor(C * 0.2)` entries with the smallest `lastAccessed` stamps in one batch
before inserting, so with capacity 10 the eleventh distinct key evicts `k1`
and `k2` (the two oldest-accessed) and leaves exactly 9 entries.  The
dispatcher cache instead deletes a single oldest-inserted entry per insert at
capacity (see the counterexample). -/
theorem claim4_theorem :
    fastEvictionScenario.length = 9 ∧
    mapHas "k1" fastEvictionScenario = false ∧
    mapHas "k2" fastEvictionScenario = false ∧
    mapHas "k3" fastEvictionScenario = true ∧
    mapHas "k10" fastEvictionScenario = true ∧
    mapHas "k11" fastEvictionScenario = true := by
  exact ⟨by decide, by decide, by decide, by decide, by decide, by decide⟩

/-- Claim C5.  On a cache miss, `translateText` iterates the providers in
ascending priority order (the list is sorted in place); disabled providers
are skipped, thrown errors are swallowed, and a provider result is accepted —
returned and cached — exactly when its confidence is strictly greater than
0.5, with earlier rejected providers (error, `null`, or confidence at most
0.5) falling through to the next one. -/
theorem claim5_theorem (oracle : String → TranslationHelper.ProviderOutcome)
    (text tgt : String) (src : Option String) (now : Nat)
    (st : TranslationHelper.State) (pre post : List TranslationHelper.Provider)
    (p : TranslationHelper.Provider) (r : TranslationHelper.TranslationResult)
    (hmiss : mapGet (TranslationHelper.cacheKey text tgt src) st.translationCache = none)
    (hsort : sortJs TranslationHelper.providerLe st.providers = pre ++ p :: post)
    (hpre : ∀ q ∈ pre, q.enabled = true →
      TranslationHelper.isAccepted
        (TranslationHelper.invokeProvider oracle q.name text src now) = false)
    (hen : p.enabled = true)
    (hinv : TranslationHelper.invokeProvider oracle p.name text src now =
      Except.ok (some r))
    (hconf : mkRat 1 2 < r.confidence) :
    TranslationHelper.translateText oracle text tgt src now st =
      (r, { translationCache :=
              TranslationHelper.cacheTranslation
                (TranslationHelper.cacheKey text tgt src) r st.translationCache
            providers := pre ++ p :: post }) := by
  have hloop : TranslationHelper.providerLoop oracle text src now
      (sortJs TranslationHelper.providerLe st.providers) = some r := by
    rw [hsort,
        TranslationHelper.providerLoop_append_of_rejected oracle text src now _ pre hpre,
        TranslationHelper.providerLoop_cons_accepted oracle text src now p post r hen hinv hconf]
  have e := TranslationHelper.translateText_accepted oracle text tgt src now st r hmiss hloop
  rw [e, hsort]

theorem claim5_witness :
    sortJs TranslationHelper.providerLe TranslationHelper.initialState.providers =
      [{ name := "gemini", enabled := true, priority := 1 }] ++
        { name := "google", enabled := true, priority := 2 } ::
          [{ name := "offline", enabled := true, priority := 3 }] ∧
    (TranslationHelper.translateText oracleGeminiThrowsGoogleOk "ciao" "en" none 3
      TranslationHelper.initialState).1 = googleSuccess := by
  have h := claim5_theorem oracleGeminiThrowsGoogleOk "ciao" "en" none 3
    TranslationHelper.initialState
    [{ name := "gemini", enabled := true, priority := 1 }]
    [{ name := "offline", enabled := true, priority := 3 }]
    { name := "google", enabled := true, priority := 2 } googleSuccess
    (by decide) (by decide) (by decide) (by decide) (by rfl) (by decide)
  exact ⟨by decide, by rw [h]⟩

/-- Claim C6 counterexample.  The claim asserts every cached entry has
confidence strictly greater than 0.5.  `FastTranslationHelper` caches every
model success without any confidence gate: a MarianMT result with score 0.4
is inserted into the cache with confidence 0.4. -/
theorem claim6_counterexample :
    (mapGet (FastTranslationHelper.cacheKey "hi" "en" "es")
        (FastTranslationHelper.translateText (some (Except.ok marianLowOut)) none
          "hi" "en" "es" 5 FastTranslationHelper.initialState).2.translationCache).map
        (fun e => e.result.confidence) =
      some (mkRat 4 10) ∧
    ¬ (mkRat 1 2 < mkRat 4 10) := by
  exact ⟨by decide, by decide⟩

/-- Claim C6 (amended).  The confidence invariant holds for the dispatcher
cache only: after any sequence of translate, clear-cache and
provider-toggling operations on a fresh `TranslationHelper`, every cached
entry has confidence strictly greater than 0.5 (the dispatcher only inserts
gated results).  The fast-translation cache does not enforce it (see the
counterexample). -/
theorem claim6_theorem (ops : List TranslationHelper.Op) :
    ∀ kv ∈ (TranslationHelper.runOps ops TranslationHelper.initialState).translationCache,
      mkRat 1 2 < kv.2.confidence := by
  apply TranslationHelper.cacheConf_runOps
  intro kv hkv
  simp [TranslationHelper.initialState] at hkv

theorem claim6_witness :
    ("hi-fr-auto", gemSuccess) ∈
      (TranslationHelper.runOps
        [TranslationHelper.Op.translate oracleGeminiOk "hi" "fr" none 1]
        TranslationHelper.initialState).translationCache ∧
    mkRat 1 2 < gemSuccess.confidence := by
  refine ⟨by decide, ?_⟩
  exact claim6_theorem [TranslationHelper.Op.translate oracleGeminiOk "hi" "fr" none 1]
    ("hi-fr-auto", gemSuccess) (by decide)

/-- Claim C7.  After any number of cache-insert (`cacheTranslation`) calls
starting from an empty cache, the dispatcher cache never exceeds its
capacity 1000 and the fast-translation cache never exceeds its capacity
2000. -/
theorem claim7_theorem (puts1 : List (String × TranslationHelper.TranslationResult))
    (puts2 : List (String × FastTranslationHelper.FastTranslationResult × Nat)) :
    (puts1.foldl (fun c kv => TranslationHelper.cacheTranslation kv.1 kv.2 c) []).length ≤
      1000 ∧
    (puts2.foldl (fun c x => FastTranslationHelper.cacheTranslation x.1 x.2.1 x.2.2 c)
      []).length ≤ 2000 := by
  constructor
  · exact TranslationHelper.length_foldl_cacheTranslation puts1 [] (by simp)
  · exact FastTranslationHelper.fastLength_foldl_cacheTranslation puts2 [] (by simp)

/-- Claim C8 counterexample.  The claim states that `"Hello, world!"` is
classified by the heuristic fallback as `category = unknown` with confidence
0.6, no pattern rule matching.  In fact the very first dialogue rule
`^[A-Z][a-z].*[.!?]$` matches the text, so the classifier returns
`category = dialogue` with confidence 0.9. -/
theorem claim8_counterexample :
    FastTranslationHelper.detectSubtitlePattern "Hello, world!" =
      { isSubtitle := true
        subtitleType := FastTranslationHelper.SubtitleType.dialogue
        confidence := mkRat 9 10 } ∧
    FastTranslationHelper.detectSubtitlePattern "Hello, world!" ≠
      { isSubtitle := true
        subtitleType := FastTranslationHelper.SubtitleType.unknown
        confidence := mkRat 6 10 } := by
  exact ⟨by decide, by decide⟩

/-- Claim C8 (amended).  Classifying `"Hello, world!"` yields
`isSubtitle = true` with category `dialogue` and confidence 0.9, because the
first dialogue pattern rule (capitalized sentence ending in terminal
punctuation) matches; the heuristic fallback is not reached. -/
theorem claim8_theorem :
    FastTranslationHelper.dialogueCapitalized "Hello, world!".toList = true ∧
    FastTranslationHelper.detectSubtitlePattern "Hello, world!" =
      { isSubtitle := true
        subtitleType := FastTranslationHelper.SubtitleType.dialogue
        confidence := mkRat 9 10 } := by
  exact ⟨by decide, by decide⟩

/-- Claim C9.  `clearCache` on the fast-translation helper empties the
translation cache (size 0) and resets `cacheHits` to 0, while leaving
`totalTranslations`, `avgLatency` and `modelLoadTime` unchanged. -/
theorem claim9_theorem (st : FastTranslationHelper.State) :
    (FastTranslationHelper.clearCache st).translationCache = [] ∧
    (FastTranslationHelper.clearCache st).translationCache.length = 0 ∧
    (FastTranslationHelper.clearCache st).performanceStats.cacheHits = 0 ∧
    (FastTranslationHelper.clearCache st).performanceStats.totalTranslations =
      st.performanceStats.totalTranslations ∧
    (FastTranslationHelper.clearCache st).performanceStats.avgLatency =
      st.performanceStats.avgLatency ∧
    (FastTranslationHelper.clearCache st).performanceStats.modelLoadTime =
      st.performanceStats.modelLoadTime :=
  ⟨rfl, rfl, rfl, rfl, rfl, rfl⟩

/-- Claim C10.  `setProviderEnabled(name, enabled)`: if no registered
provider has the name, the provider list is unchanged; if the provider names
are distinct and some provider has the name, the result is the same list
with exactly that provider's `enabled` flag set — names, priorities, order
and membership are untouched. -/
theorem claim10_theorem (ps : List TranslationHelper.Provider) (name : String) (b : Bool) :
    ((∀ q ∈ ps, q.name ≠ name) →
      TranslationHelper.setProviderEnabled name b ps = ps) ∧
    ((ps.map TranslationHelper.Provider.name).Nodup →
      ∀ p ∈ ps, p.name = name →
        TranslationHelper.setProviderEnabled name b ps =
          ps.map (fun q => if q.name = name then { q with enabled := b } else q)) :=
  ⟨fun h => TranslationHelper.setProviderEnabled_not_found ps name b h,
   fun hnd p hp hpname =>
     TranslationHelper.setProviderEnabled_found ps name b hnd p hp hpname⟩

theorem claim10_witness :
    (TranslationHelper.providers.map TranslationHelper.Provider.name).Nodup ∧
    TranslationHelper.setProviderEnabled "google" false TranslationHelper.providers =
      TranslationHelper.providers.map
        (fun q => if q.name = "google" then { q with enabled := false } else q) := by
  refine ⟨by decide, ?_⟩
  exact (claim10_theorem TranslationHelper.providers "google" false).2 (by decide)
    { name := "google", enabled := true, priority := 2 } (by decide) rfl

end Shadowing
